import Mathlib

/-!
# Verification of `ServerKit::AcceptLoadBalancer` (ext/common/ServerKit/AcceptLoadBalancer.h)

A shallow embedding of the accept-and-distribute engine of the
`AcceptLoadBalancer<Server>` class template, together with theorems settling
the specification's claims about it.

Modelling conventions:

* Syscall outcomes are supplied by an explicit `Env` record (whether the
  combined `accept4` primitive is supported, which error code it reports when
  unsupported, and on which accepted descriptors `setNonBlocking` fails) plus
  an explicit per-endpoint kernel queue `EpState` (the pending connections in
  kernel order, and the `errno` that a further `accept` reports once the queue
  is drained — `EAGAIN` on a healthy endpoint).
* File descriptors and `errno` values are `Nat`.  The concrete `errno`
  constants are only required to be pairwise distinct, matching the Linux
  values where they exist.
* The C++ bitfields are modelled with their declared widths, since assignment
  to a bitfield truncates modulo `2^width`:
  `unsigned int newClientCount: 4` stores values modulo 16 and
  `unsigned int nEndpoints: 2` stores values modulo 4.
* Logging (`P_ERROR` / `P_NOTICE`) is modelled as an explicit event list so
  that claims about what is logged can be stated.
-/

namespace AcceptLoadBalancer

/-- `ACCEPT_BURST_COUNT` from the source: at most 16 accepts per burst. -/
def ACCEPT_BURST_COUNT : Nat := 16

/-- `errno` constant `EAGAIN` (Linux value). -/
def EAGAIN : Nat := 11

/-- `errno` constant `EWOULDBLOCK`; kept distinct from `EAGAIN` because the
source tests both codes separately. -/
def EWOULDBLOCK : Nat := 140

/-- `errno` constant `ENOSYS` (Linux value). -/
def ENOSYS : Nat := 38

/-- `errno` constant `EINVAL` (Linux value). -/
def EINVAL : Nat := 22

/-- `errno` constant `EMFILE` (Linux value), used as a sample
resource-exhaustion error in concrete instances. -/
def EMFILE : Nat := 24

/-- The kernel-side state of one listening endpoint: the queue of pending
connection descriptors in kernel order, and the `errno` an accept reports
once the queue is empty (`EAGAIN` on a healthy endpoint). -/
structure EpState where
  pending : List Nat
  errAfter : Nat
  deriving DecidableEq, Repr

/-- The syscall environment: whether the combined `accept4` primitive is
supported, the error code it reports when it is not (`ENOSYS`, or `EINVAL`
on FreeBSD), and on which accepted descriptors `setNonBlocking` throws
(with which `errno`). -/
structure Env where
  accept4Supported : Bool
  accept4FailCode : Nat
  snbFailFds : List Nat
  snbErrno : Nat
  deriving DecidableEq, Repr

/-- One raw `accept` on an endpoint: pops the head of the kernel queue, or
fails with `errAfter` if the queue is empty. -/
def rawAccept (ep : EpState) : Except Nat Nat × EpState :=
  match ep.pending with
  | [] => (Except.error ep.errAfter, ep)
  | fd :: rest => (Except.ok fd, ⟨rest, ep.errAfter⟩)

/-- `callAccept4`: the combined accept-plus-`O_NONBLOCK` primitive.  When the
environment supports it, it behaves like `rawAccept` (and the connection is
already non-blocking); when not, it fails with `accept4FailCode` without
consuming anything. -/
def callAccept4 (env : Env) (ep : EpState) : Except Nat Nat × EpState :=
  if env.accept4Supported then rawAccept ep
  else (Except.error env.accept4FailCode, ep)

/-- The `else` branch of `acceptNonBlockingSocket`: a plain
`syscalls::accept` followed by `setNonBlocking(fd)`.  If `setNonBlocking`
throws, the `FdGuard` closes the freshly accepted descriptor, `errno` is set
to the exception's code, and -1 is returned.  The third component is the
(unchanged, `false`) `accept4Available` flag. -/
def acceptPlain (env : Env) (ep : EpState) : Except Nat Nat × EpState × Bool :=
  match rawAccept ep with
  | (Except.error e, ep') => (Except.error e, ep', false)
  | (Except.ok fd, ep') =>
    if fd ∈ env.snbFailFds then (Except.error env.snbErrno, ep', false)
    else (Except.ok fd, ep', false)

/-- `acceptNonBlockingSocket(serverFd)`: tries `callAccept4` when
`accept4Available` is set; on `ENOSYS`/`EINVAL` clears the flag and retries
the same attempt through the plain-accept path (the source does this with a
self-recursive call whose reentry has the flag cleared, so the retry body is
exactly the `else` branch, `acceptPlain`).  Returns the accept result, the
updated endpoint queue, and the updated `accept4Available` flag. -/
def acceptNonBlockingSocket (env : Env) (ep : EpState) (accept4Available : Bool) :
    Except Nat Nat × EpState × Bool :=
  if accept4Available then
    match callAccept4 env ep with
    | (Except.ok fd, ep') => (Except.ok fd, ep', true)
    | (Except.error e, ep') =>
      if e = ENOSYS ∨ e = EINVAL then acceptPlain env ep'
      else (Except.error e, ep', true)
  else acceptPlain env ep

/-- A literal, fuelled transcription of the self-recursive
`acceptNonBlockingSocket` from the source: the recursive call is taken as
written, and `none` is returned when the fuel runs out.  Used to prove that
the recursion always terminates with at most one retry (fuel 2 suffices). -/
def acceptNBSFuel : Nat → Env → EpState → Bool → Option (Except Nat Nat × EpState × Bool)
  | 0, _, _, _ => none
  | fuel + 1, env, ep, accept4Available =>
    if accept4Available then
      match callAccept4 env ep with
      | (Except.ok fd, ep') => some (Except.ok fd, ep', true)
      | (Except.error e, ep') =>
        if e = ENOSYS ∨ e = EINVAL then acceptNBSFuel fuel env ep' false
        else some (Except.error e, ep', true)
    else
      match rawAccept ep with
      | (Except.error e, ep') => some (Except.error e, ep', false)
      | (Except.ok fd, ep') =>
        if fd ∈ env.snbFailFds then some (Except.error env.snbErrno, ep', false)
        else some (Except.ok fd, ep', false)

/-- Diagnostic events emitted by the loop: the `P_ERROR` on a
non-would-block accept failure, and the `P_NOTICE` when cooldown ends
without a shutdown request. -/
inductive LogEvent where
  | acceptError (errcode : Nat)
  | resumeNotice
  deriving DecidableEq, Repr

/-- The outcome of one `acceptNewClients(endpoint)` call. -/
structure BurstResult where
  /-- The descriptors written to `newClients[0 .. i-1]`, in accept order. -/
  accepted : List Nat
  /-- The value stored in the 4-bit `newClientCount` bitfield, i.e. `i % 16`. -/
  newClientCount : Nat
  /-- `accept4Available` after the burst. -/
  accept4Available : Bool
  /-- The `quit` flag after the burst. -/
  quit : Bool
  /-- The boolean return value (`false` signals a cooldown happened). -/
  ok : Bool
  /-- How many bounded cooldown waits were performed. -/
  cooldowns : Nat
  /-- Diagnostics emitted during the burst, in order. -/
  logs : List LogEvent
  /-- The endpoint's kernel queue after the burst. -/
  ep : EpState
  deriving DecidableEq, Repr

/-- The `for (i = 0; i < ACCEPT_BURST_COUNT; i++)` loop of
`acceptNewClients`: repeatedly calls `acceptNonBlockingSocket`, collecting
descriptors, and stops at the first failure, reporting its `errno`.
Returns `(collected fds, error that stopped the loop if any, endpoint
queue, accept4Available flag)`. -/
def acceptLoop (env : Env) : Nat → EpState → Bool → List Nat × Option Nat × EpState × Bool
  | 0, ep, flag => ([], none, ep, flag)
  | n + 1, ep, flag =>
    match acceptNonBlockingSocket env ep flag with
    | (Except.error e, ep', flag') => ([], some e, ep', flag')
    | (Except.ok fd, ep', flag') =>
      match acceptLoop env n ep' flag' with
      | (fds, err, ep'', flag'') => (fd :: fds, err, ep'', flag'')

/-- `acceptNewClients(endpoint)`: runs the burst loop, stores the loop
counter into the 4-bit `newClientCount` bitfield (hence modulo 16), and on a
failure other than `EAGAIN`/`EWOULDBLOCK` logs the error and performs one
bounded (3-unit) `poll` on the exit pipe alone — `exitPipeFires` says whether
that pipe becomes readable during the wait; if it does, `quit` is set,
otherwise a resume notice is logged — returning `false`; in every other case
it returns `true` with no wait and no log. -/
def acceptNewClients (env : Env) (exitPipeFires : Bool) (ep : EpState)
    (accept4Available : Bool) (quit : Bool) : BurstResult :=
  match acceptLoop env ACCEPT_BURST_COUNT ep accept4Available with
  | (fds, err, ep', flag') =>
    let count := fds.length % 16
    match err with
    | some e =>
      if e ≠ EAGAIN ∧ e ≠ EWOULDBLOCK then
        { accepted := fds, newClientCount := count, accept4Available := flag',
          quit := if exitPipeFires then true else quit,
          ok := false, cooldowns := 1,
          logs := LogEvent.acceptError e ::
            (if exitPipeFires then [] else [LogEvent.resumeNotice]),
          ep := ep' }
      else
        { accepted := fds, newClientCount := count, accept4Available := flag',
          quit := quit, ok := true, cooldowns := 0, logs := [], ep := ep' }
    | none =>
      { accepted := fds, newClientCount := count, accept4Available := flag',
        quit := quit, ok := true, cooldowns := 0, logs := [], ep := ep' }

/-- The `for (i = 0; i < newClientCount; i++)` loop of
`distributeNewClients`, over the prefix of the buffer selected by
`newClientCount`: dispatches each descriptor to `servers[nextServer]` and
advances `nextServer = (nextServer + 1) % servers.size()`.  `N` is
`servers.size()`.  Returns the dispatch log (worker index, descriptor) in
order, and the final cursor. -/
def distributeList (N : Nat) : List Nat → Nat → List (Nat × Nat) × Nat
  | [], cur => ([], cur)
  | fd :: rest, cur =>
    match distributeList N rest ((cur + 1) % N) with
    | (ds, cur') => ((cur, fd) :: ds, cur')

/-- The mutable state of the balancer visible to the main loop thread. -/
structure LBState where
  /-- The kernel queues of the registered endpoints, in registration order. -/
  endpoints : List EpState
  /-- The `accept4Available` bitfield flag. -/
  accept4Available : Bool
  /-- The `quit` bitfield flag. -/
  quit : Bool
  /-- The contents of the `newClients` array (written prefix). -/
  buffer : List Nat
  /-- The 4-bit `newClientCount` bitfield. -/
  count : Nat
  /-- The `nextServer` rotation cursor. -/
  nextServer : Nat
  /-- Dispatch log: every `(worker index, descriptor)` handed off so far. -/
  dispatched : List (Nat × Nat)
  /-- Diagnostics emitted so far. -/
  logs : List LogEvent
  deriving DecidableEq, Repr

/-- `distributeNewClients()`: dispatches `newClients[0 .. newClientCount-1]`
round-robin and resets `newClientCount` to 0 (the buffer itself is not
cleared). `N` is `servers.size()`. -/
def distributeNewClients (N : Nat) (s : LBState) : LBState :=
  match distributeList N (s.buffer.take s.count) s.nextServer with
  | (ds, cur) =>
    { s with dispatched := s.dispatched ++ ds, nextServer := cur, count := 0 }

/-- The accept-side state threaded through the per-endpoint scan of one
main-loop iteration. -/
structure ScanState where
  accept4Available : Bool
  quit : Bool
  buffer : List Nat
  count : Nat
  logs : List LogEvent
  deriving DecidableEq, Repr

/-- The `for (i = 0; i < nEndpoints; i++)` scan of `mainLoop`: each readable
endpoint gets an `acceptNewClients` burst, whose descriptors overwrite the
buffer prefix `newClients[0 .. i-1]` (stale tail kept); a burst returning
`false` breaks out of the scan, leaving later endpoints untouched.  Input is
the list of endpoint queues paired with their `POLLIN` readiness bits. -/
def scanEndpoints (env : Env) (exitPipeFires : Bool) :
    List (EpState × Bool) → ScanState → List EpState × ScanState
  | [], st => ([], st)
  | (ep, ready) :: rest, st =>
    if ready then
      let r := acceptNewClients env exitPipeFires ep st.accept4Available st.quit
      let st' : ScanState :=
        { accept4Available := r.accept4Available, quit := r.quit,
          buffer := r.accepted ++ st.buffer.drop r.accepted.length,
          count := r.newClientCount, logs := st.logs ++ r.logs }
      if r.ok then
        match scanEndpoints env exitPipeFires rest st' with
        | (eps, stF) => (r.ep :: eps, stF)
      else (r.ep :: rest.map Prod.fst, st')
    else
      match scanEndpoints env exitPipeFires rest st with
      | (eps, stF) => (ep :: eps, stF)

/-- The exogenous events of one main-loop iteration: the `poll` readiness of
the exit pipe (`pollers[0]`) and of each registered endpoint, and whether
the exit pipe fires during a cooldown wait, should one occur. -/
structure IterIn where
  exitReadable : Bool
  readable : List Bool
  exitPipeFires : Bool
  deriving DecidableEq, Repr

/-- One iteration of the `while (!quit)` body of `mainLoop`: poll; if the
exit pipe is readable, set `quit` and break at once (no endpoint serviced,
nothing distributed this iteration); otherwise scan the readable endpoints
and then run `distributeNewClients()` once. `N` is `servers.size()`. -/
def iteration (N : Nat) (env : Env) (inp : IterIn) (s : LBState) : LBState :=
  if inp.exitReadable then { s with quit := true }
  else
    match scanEndpoints env inp.exitPipeFires (s.endpoints.zip inp.readable)
        ⟨s.accept4Available, s.quit, s.buffer, s.count, s.logs⟩ with
    | (eps, st) =>
      distributeNewClients N
        { s with
          endpoints := eps, accept4Available := st.accept4Available,
          quit := st.quit, buffer := st.buffer, count := st.count,
          logs := st.logs }

/-- `mainLoop()`: runs iterations while `quit` is unset, consuming one
`IterIn` of poll outcomes per iteration (the supplied list bounds how many
wake-ups occur in the modelled run). -/
def mainLoop (N : Nat) (env : Env) : List IterIn → LBState → LBState
  | [], s => s
  | inp :: rest, s => if s.quit then s else mainLoop N env rest (iteration N env inp s)

/-- The constructor's initialisation: no endpoints, `accept4Available`
optimistically `true`, `quit` unset, `newClientCount` 0.  The C++
constructor leaves `nextServer` uninitialised, so its initial value is a
parameter here. -/
def initialState (nextServerInit : Nat) : LBState :=
  { endpoints := [], accept4Available := true, quit := false, buffer := [],
    count := 0, nextServer := nextServerInit, dispatched := [], logs := [] }

/-- Modelled from the spec: `SERVER_KIT_MAX_SERVER_ENDPOINTS` is defined in
`Constants.h`, which is not part of the provided sources; the spec fixes the
capacity as "a small fixed maximum, e.g. 4". -/
def SERVER_KIT_MAX_SERVER_ENDPOINTS : Nat := 4

/-- The registration-time state: the `endpoints` array (4 `int` slots,
`none` = never written) and the 2-bit `nEndpoints` bitfield. -/
structure RegState where
  endpoints : List (Option Nat)
  nEndpoints : Nat
  deriving DecidableEq, Repr

/-- The `endpoints` array and counter as the constructor leaves them. -/
def initialRegState : RegState :=
  { endpoints := [none, none, none, none], nEndpoints := 0 }

/-- `listen(fd)`: asserts `nEndpoints < SERVER_KIT_MAX_SERVER_ENDPOINTS`
(`none` models the fatal assertion failure), makes `fd` non-blocking, stores
it at `endpoints[nEndpoints]`, and increments the 2-bit `nEndpoints`
bitfield (hence modulo 4). -/
def listen (s : RegState) (fd : Nat) : Option RegState :=
  if s.nEndpoints < SERVER_KIT_MAX_SERVER_ENDPOINTS then
    some { endpoints := s.endpoints.set s.nEndpoints (some fd),
           nEndpoints := (s.nEndpoints + 1) % 4 }
  else none

/-- Registers each descriptor in turn, stopping at an assertion failure. -/
def listenAll (s : RegState) : List Nat → Option RegState
  | [] => some s
  | fd :: rest =>
    match listen s fd with
    | some s' => listenAll s' rest
    | none => none

/-- The externally observable effects of one `shutdown()` call. -/
structure ShutdownResult where
  /-- Whether the one-byte write to `exitPipe[1]` was attempted. -/
  wroteByte : Bool
  /-- Whether `thread->join()` was called (returning only after the loop
  has observed `quit` and the thread has exited). -/
  joined : Bool
  /-- Whether the `P_WARN` about a failed write was emitted. -/
  warned : Bool
  /-- Whether the `thread` pointer is non-NULL afterwards. -/
  threadRunning : Bool
  deriving DecidableEq, Repr

/-- `shutdown()`: when `thread` is non-NULL, writes one byte to the exit
pipe (`writeErr` is the `errno` of a failed write, `none` on success; only
errors other than `EAGAIN`/`EWOULDBLOCK` are warned about), joins the
thread, deletes it and sets the pointer to NULL; when `thread` is NULL the
call does nothing. -/
def shutdown (threadRunning : Bool) (writeErr : Option Nat) : ShutdownResult :=
  if threadRunning then
    { wroteByte := true, joined := true,
      warned := match writeErr with
        | some e => decide (e ≠ EAGAIN ∧ e ≠ EWOULDBLOCK)
        | none => false,
      threadRunning := false }
  else
    { wroteByte := false, joined := false, warned := false,
      threadRunning := false }

/-- Definition following the spec's words, for comparison with
`distributeList`: starting from rotation slot `start`, the `j`-th connection
of the list goes to worker `(start + j) % N`, in order. -/
def roundRobinSpec (N : Nat) : Nat → List Nat → List (Nat × Nat)
  | _, [] => []
  | start, fd :: rest => (start % N, fd) :: roundRobinSpec N (start + 1) rest

/-- One run of the distributor over several batches (a batch is the buffer
prefix handled by one `distributeNewClients()` call; the split of a
connection sequence into batches is the split across endpoints and
iterations), threading the persistent `nextServer` cursor. -/
def dispatchBatches (N : Nat) : List (List Nat) → Nat → List (Nat × Nat) × Nat
  | [], cur => ([], cur)
  | b :: rest, cur =>
    match distributeList N b cur with
    | (ds, cur') =>
      match dispatchBatches N rest cur' with
      | (ds', cur'') => (ds ++ ds', cur'')

/-! ## Helper lemmas -/

theorem roundRobinSpec_mod (N : Nat) (l : List Nat) (s : Nat) :
    roundRobinSpec N (s % N) l = roundRobinSpec N s l := by
  induction l generalizing s with
  | nil => rfl
  | cons fd rest ih =>
    simp only [roundRobinSpec]
    refine congrArg₂ _ (by rw [Nat.mod_mod_of_dvd _ dvd_rfl]) ?_
    calc roundRobinSpec N (s % N + 1) rest
        = roundRobinSpec N ((s % N + 1) % N) rest := (ih (s % N + 1)).symm
      _ = roundRobinSpec N ((s + 1) % N) rest := by rw [Nat.mod_add_mod]
      _ = roundRobinSpec N (s + 1) rest := ih (s + 1)

theorem roundRobinSpec_append (N s : Nat) (a b : List Nat) :
    roundRobinSpec N s (a ++ b)
      = roundRobinSpec N s a ++ roundRobinSpec N (s + a.length) b := by
  induction a generalizing s with
  | nil => simp [roundRobinSpec]
  | cons fd rest ih =>
    simp only [List.cons_append, roundRobinSpec, List.length_cons, List.append_eq,
      ih (s + 1)]
    have h : s + 1 + rest.length = s + (rest.length + 1) := by omega
    rw [h]

theorem distributeList_eq (N : Nat) (l : List Nat) (cur : Nat) (hcur : cur < N) :
    distributeList N l cur = (roundRobinSpec N cur l, (cur + l.length) % N) := by
  have hN : 0 < N := Nat.lt_of_le_of_lt (Nat.zero_le cur) hcur
  induction l generalizing cur with
  | nil =>
    simp [distributeList, roundRobinSpec, Nat.mod_eq_of_lt hcur]
  | cons fd rest ih =>
    have hcur' : (cur + 1) % N < N := Nat.mod_lt _ hN
    simp only [distributeList, ih ((cur + 1) % N) hcur', roundRobinSpec]
    refine congrArg₂ _ (congrArg₂ _ (congrArg₂ _ (Nat.mod_eq_of_lt hcur).symm rfl) ?_) ?_
    · rw [roundRobinSpec_mod]
    · simp only [Nat.mod_add_mod, List.length_cons]
      refine congrArg₂ _ (by omega) rfl

theorem dispatchBatches_eq (N : Nat) (batches : List (List Nat)) (cur : Nat)
    (hcur : cur < N) :
    dispatchBatches N batches cur
      = (roundRobinSpec N cur batches.flatten, (cur + batches.flatten.length) % N) := by
  have hN : 0 < N := Nat.lt_of_le_of_lt (Nat.zero_le cur) hcur
  induction batches generalizing cur with
  | nil =>
    simp [dispatchBatches, roundRobinSpec, Nat.mod_eq_of_lt hcur]
  | cons b rest ih =>
    have hcur' : (cur + b.length) % N < N := Nat.mod_lt _ hN
    simp only [dispatchBatches, distributeList_eq N b cur hcur, ih _ hcur',
      List.flatten_cons]
    refine congrArg₂ _ ?_ ?_
    · rw [roundRobinSpec_append, roundRobinSpec_mod]
    · have h : cur + b.length + rest.flatten.length
          = cur + (b.length + rest.flatten.length) := by omega
      rw [Nat.mod_add_mod, List.length_append, h]

/-- Whether the current `callAccept4` attempt fails with `ENOSYS` or
`EINVAL`, i.e. the condition under which `acceptNonBlockingSocket` clears
`accept4Available`. -/
def accept4Downgrades (env : Env) (ep : EpState) : Bool :=
  match (callAccept4 env ep).1 with
  | Except.error e => decide (e = ENOSYS ∨ e = EINVAL)
  | Except.ok _ => false

theorem acceptPlain_flag (env : Env) (ep : EpState) :
    (acceptPlain env ep).2.2 = false := by
  rcases h : rawAccept ep with ⟨r, ep'⟩
  cases r with
  | error e => simp [acceptPlain, h]
  | ok fd =>
    simp only [acceptPlain, h]
    split <;> rfl

theorem acceptNonBlockingSocket_false (env : Env) (ep : EpState) :
    acceptNonBlockingSocket env ep false = acceptPlain env ep := by
  simp [acceptNonBlockingSocket]

theorem callAccept4_error_ep (env : Env) (ep : EpState) (e : Nat)
    (h : (callAccept4 env ep).1 = Except.error e) : (callAccept4 env ep).2 = ep := by
  by_cases hs : env.accept4Supported <;> simp [callAccept4, hs] at h ⊢
  rcases hp : ep.pending with _ | ⟨fd, rest⟩ <;> simp [rawAccept, hp] at h ⊢

theorem acceptNonBlockingSocket_flag_mono (env : Env) (ep : EpState) (flag : Bool)
    (h : (acceptNonBlockingSocket env ep flag).2.2 = true) : flag = true := by
  cases flag with
  | true => rfl
  | false =>
    rw [acceptNonBlockingSocket_false, acceptPlain_flag] at h
    exact h

theorem acceptLoop_flag_mono (env : Env) (n : Nat) (ep : EpState) (flag : Bool)
    (h : (acceptLoop env n ep flag).2.2.2 = true) : flag = true := by
  induction n generalizing ep flag with
  | zero => exact h
  | succ n ih =>
    rcases ha : acceptNonBlockingSocket env ep flag with ⟨r, ep', flag'⟩
    cases r with
    | error e =>
      simp only [acceptLoop, ha] at h
      exact acceptNonBlockingSocket_flag_mono env ep flag (ha ▸ h)
    | ok fd =>
      simp only [acceptLoop, ha] at h
      rcases hl : acceptLoop env n ep' flag' with ⟨fds, err, ep'', flag''⟩
      rw [hl] at h
      have hflag' : flag' = true := ih ep' flag' (by rw [hl]; exact h)
      exact acceptNonBlockingSocket_flag_mono env ep flag (by rw [ha, hflag'])

theorem acceptNewClients_flag_mono (env : Env) (cf : Bool) (ep : EpState)
    (flag quit : Bool)
    (h : (acceptNewClients env cf ep flag quit).accept4Available = true) :
    flag = true := by
  rcases hl : acceptLoop env ACCEPT_BURST_COUNT ep flag with ⟨fds, err, ep', flag'⟩
  apply acceptLoop_flag_mono env ACCEPT_BURST_COUNT ep flag
  rw [hl]
  simp only [acceptNewClients, hl] at h
  cases err with
  | none => exact h
  | some e =>
    simp only at h
    split at h <;> exact h

theorem scanEndpoints_flag_mono (env : Env) (cf : Bool)
    (eps : List (EpState × Bool)) (st : ScanState)
    (h : (scanEndpoints env cf eps st).2.accept4Available = true) :
    st.accept4Available = true := by
  induction eps generalizing st with
  | nil => exact h
  | cons p rest ih =>
    rcases p with ⟨ep, ready⟩
    by_cases hr : ready
    · simp only [scanEndpoints, hr, if_true] at h
      set r := acceptNewClients env cf ep st.accept4Available st.quit with hrdef
      by_cases hok : r.ok
      · simp only [hok, if_true] at h
        rcases hs : scanEndpoints env cf rest
            ⟨r.accept4Available, r.quit, r.accepted ++ st.buffer.drop r.accepted.length,
             r.newClientCount, st.logs ++ r.logs⟩ with ⟨eps', stF⟩
        rw [hs] at h
        have := ih _ (by rw [hs]; exact h)
        exact acceptNewClients_flag_mono env cf ep st.accept4Available st.quit this
      · simp only [hok, if_false] at h
        exact acceptNewClients_flag_mono env cf ep st.accept4Available st.quit h
    · simp only [scanEndpoints, hr, if_false] at h
      rcases hs : scanEndpoints env cf rest st with ⟨eps', stF⟩
      rw [hs] at h
      exact ih st (by rw [hs]; exact h)

theorem iteration_flag_mono (N : Nat) (env : Env) (inp : IterIn) (s : LBState)
    (h : (iteration N env inp s).accept4Available = true) :
    s.accept4Available = true := by
  by_cases he : inp.exitReadable
  · simpa [iteration, he] using h
  · simp only [iteration, he, if_false] at h
    rcases hs : scanEndpoints env inp.exitPipeFires (s.endpoints.zip inp.readable)
        ⟨s.accept4Available, s.quit, s.buffer, s.count, s.logs⟩ with ⟨eps', st⟩
    rw [hs] at h
    simp only [distributeNewClients] at h
    rcases hd : distributeList N (st.buffer.take st.count) s.nextServer with ⟨ds, cur⟩
    rw [hd] at h
    exact scanEndpoints_flag_mono env inp.exitPipeFires _ _ (by rw [hs]; exact h)

theorem mainLoop_flag_mono (N : Nat) (env : Env) (inps : List IterIn) (s : LBState)
    (h : (mainLoop N env inps s).accept4Available = true) :
    s.accept4Available = true := by
  induction inps generalizing s with
  | nil => exact h
  | cons inp rest ih =>
    by_cases hq : s.quit
    · simpa [mainLoop, hq] using h
    · simp only [mainLoop, hq, if_false] at h
      exact iteration_flag_mono N env inp s (ih _ h)

/-! ## Claim theorems -/

/-- **C3** (confirmed).  For every worker count `N ≥ 1` and every split of a
connection sequence into batches (across endpoints and iterations), the
distributor run starting with the rotation cursor at 0 assigns the `j`-th
connection overall to worker `j % N` in order (so worker `i` receives
exactly the connections at positions `i, i + N, i + 2N, …`, with burst order
preserved across consecutive rotation slots), and the cursor, advanced by
one modulo `N` per dispatched connection, ends at `K % N` and always
satisfies `0 ≤ cursor < N` (every intermediate cursor is the final cursor of
a batch-list prefix, which this theorem also covers). -/
theorem distributeNewClients_round_robin (N : Nat) (hN : 0 < N)
    (batches : List (List Nat)) :
    dispatchBatches N batches 0
      = (roundRobinSpec N 0 batches.flatten, batches.flatten.length % N)
    ∧ (dispatchBatches N batches 0).2 < N := by
  have h := dispatchBatches_eq N batches 0 hN
  refine ⟨by simpa using h, ?_⟩
  rw [h]
  exact Nat.mod_lt _ hN

/-- Witness for C3: a concrete two-batch run over two workers. -/
theorem distributeNewClients_round_robin_witness :
    0 < 2
    ∧ (dispatchBatches 2 [[5, 6, 7], [8, 9]] 0
        = (roundRobinSpec 2 0 [[5, 6, 7], [8, 9]].flatten,
           [[5, 6, 7], [8, 9]].flatten.length % 2)
      ∧ (dispatchBatches 2 [[5, 6, 7], [8, 9]] 0).2 < 2) :=
  ⟨by decide, distributeNewClients_round_robin 2 (by decide) [[5, 6, 7], [8, 9]]⟩

/-- A healthy Linux-like environment: `accept4` supported, `setNonBlocking`
never fails. -/
def envStd : Env := ⟨true, ENOSYS, [], 0⟩

/-- An environment whose kernel lacks `accept4` (reports `ENOSYS`). -/
def envNo4 : Env := ⟨false, ENOSYS, [], 0⟩

/-- A state whose capability flag is already cleared and whose single
endpoint still has a pending connection. -/
def sFlagOff : LBState :=
  { endpoints := [⟨[3], EAGAIN⟩], accept4Available := false, quit := false,
    buffer := [], count := 0, nextServer := 0, dispatched := [], logs := [] }

/-- **C6** (confirmed).  The capability flag `accept4Available` starts
`true`; a call of `acceptNonBlockingSocket` leaves it `false` exactly when
it was already `false` or the `callAccept4` attempt failed with `ENOSYS` or
`EINVAL`; in the latter case the very same attempt is retried once through
the plain-accept path (`acceptPlain`, the function's `else` branch); and
once the flag is `false` it stays `false` for the rest of the main loop's
run, so no later attempt uses the combined primitive (the primitive is
invoked only under a `true` flag). -/
theorem accept4Available_lifecycle (g N : Nat) (env : Env) (ep : EpState)
    (flag : Bool) (inps : List IterIn) (s : LBState) :
    (initialState g).accept4Available = true
    ∧ ((acceptNonBlockingSocket env ep flag).2.2 = false
        ↔ (flag = false ∨ accept4Downgrades env ep = true))
    ∧ (flag = true → accept4Downgrades env ep = true →
        acceptNonBlockingSocket env ep flag = acceptPlain env ep)
    ∧ (s.accept4Available = false → (mainLoop N env inps s).accept4Available = false) := by
  refine ⟨rfl, ?_, ?_, ?_⟩
  · cases flag with
    | false =>
      rw [acceptNonBlockingSocket_false, acceptPlain_flag]
      simp
    | true =>
      rcases hc : callAccept4 env ep with ⟨r, ep'⟩
      cases r with
      | ok fd =>
        simp [acceptNonBlockingSocket, accept4Downgrades, hc]
      | error e =>
        by_cases hd : e = ENOSYS ∨ e = EINVAL
        · simp [acceptNonBlockingSocket, accept4Downgrades, hc, hd,
            acceptPlain_flag]
        · push_neg at hd
          simp [acceptNonBlockingSocket, accept4Downgrades, hc, hd.1, hd.2]
  · intro hf hd
    subst hf
    rcases hc : callAccept4 env ep with ⟨r, ep'⟩
    cases r with
    | ok fd => simp [accept4Downgrades, hc] at hd
    | error e =>
      have hep : ep' = ep := by
        have := callAccept4_error_ep env ep e (by rw [hc])
        rw [hc] at this
        exact this
      simp only [accept4Downgrades, hc] at hd
      have hd' : e = ENOSYS ∨ e = EINVAL := of_decide_eq_true hd
      simp [acceptNonBlockingSocket, hc, hd', hep]
  · intro h
    cases hres : (mainLoop N env inps s).accept4Available with
    | false => rfl
    | true =>
      have := mainLoop_flag_mono N env inps s hres
      rw [this] at h
      exact absurd h (by simp)

/-- Witness for C6: on a kernel without `accept4`, a flag-clearing call is
the plain-accept path, and a run that starts with the flag cleared ends
with it cleared. -/
theorem accept4Available_lifecycle_witness :
    acceptNonBlockingSocket envNo4 ⟨[5], EAGAIN⟩ true = acceptPlain envNo4 ⟨[5], EAGAIN⟩
    ∧ (mainLoop 1 envNo4 [⟨false, [true], false⟩] sFlagOff).accept4Available = false :=
  ⟨(accept4Available_lifecycle 0 1 envNo4 ⟨[5], EAGAIN⟩ true [] sFlagOff).2.2.1
      rfl (by decide),
   (accept4Available_lifecycle 0 1 envNo4 ⟨[5], EAGAIN⟩ true
      [⟨false, [true], false⟩] sFlagOff).2.2.2 rfl⟩

theorem acceptNBSFuel_two_false (env : Env) (ep : EpState) :
    acceptNBSFuel 2 env ep false = some (acceptPlain env ep) := by
  rcases h : rawAccept ep with ⟨r, ep'⟩
  cases r with
  | error e => simp [acceptNBSFuel, acceptPlain, h]
  | ok fd => simp [acceptNBSFuel, acceptPlain, h, apply_ite]

theorem acceptNBSFuel_one_false (env : Env) (ep : EpState) :
    acceptNBSFuel 1 env ep false = some (acceptPlain env ep) := by
  rcases h : rawAccept ep with ⟨r, ep'⟩
  cases r with
  | error e => simp [acceptNBSFuel, acceptPlain, h]
  | ok fd => simp [acceptNBSFuel, acceptPlain, h, apply_ite]

/-- **C10** (confirmed).  The self-recursive `acceptNonBlockingSocket`
terminates on every input: fuel 2 always makes the literal fuelled
transcription of the source agree with the total function (so the retry
after clearing the capability flag runs at most once per call), and with
the flag already `false` fuel 1 suffices (the plain-accept branch contains
no recursive call). -/
theorem acceptNonBlockingSocket_terminates (env : Env) (ep : EpState) (flag : Bool) :
    acceptNBSFuel 2 env ep flag = some (acceptNonBlockingSocket env ep flag)
    ∧ acceptNBSFuel 1 env ep false = some (acceptNonBlockingSocket env ep false) := by
  constructor
  · cases flag with
    | false =>
      rw [acceptNonBlockingSocket_false]
      exact acceptNBSFuel_two_false env ep
    | true =>
      rcases hc : callAccept4 env ep with ⟨r, ep'⟩
      cases r with
      | ok fd => simp [acceptNBSFuel, acceptNonBlockingSocket, hc]
      | error e =>
        by_cases hd : e = ENOSYS ∨ e = EINVAL
        · simp only [acceptNBSFuel, acceptNonBlockingSocket, hc, hd, if_true]
          exact acceptNBSFuel_one_false env ep'
        · simp [acceptNBSFuel, acceptNonBlockingSocket, hc, hd]
  · rw [acceptNonBlockingSocket_false]
    exact acceptNBSFuel_one_false env ep

theorem acceptNonBlockingSocket_ok (env : Env) (fd : Nat) (rest : List Nat)
    (e : Nat) (flag : Bool) (hsnb : env.snbFailFds = [])
    (hcap : env.accept4Supported = true ∨ env.accept4FailCode = ENOSYS ∨
      env.accept4FailCode = EINVAL) :
    acceptNonBlockingSocket env ⟨fd :: rest, e⟩ flag
      = (Except.ok fd, ⟨rest, e⟩, flag && env.accept4Supported) := by
  cases flag with
  | false =>
    rw [acceptNonBlockingSocket_false]
    simp [acceptPlain, rawAccept, hsnb]
  | true =>
    by_cases hs : env.accept4Supported = true
    · simp [acceptNonBlockingSocket, callAccept4, hs, rawAccept]
    · have hfc : env.accept4FailCode = ENOSYS ∨ env.accept4FailCode = EINVAL := by
        rcases hcap with h | h | h
        · exact absurd h hs
        · exact Or.inl h
        · exact Or.inr h
      simp [acceptNonBlockingSocket, callAccept4, hs, hfc, acceptPlain,
        rawAccept, hsnb]

theorem acceptNonBlockingSocket_empty (env : Env) (e : Nat) (flag : Bool)
    (hcap : env.accept4Supported = true ∨ env.accept4FailCode = ENOSYS ∨
      env.accept4FailCode = EINVAL)
    (he1 : e ≠ ENOSYS) (he2 : e ≠ EINVAL) :
    acceptNonBlockingSocket env ⟨[], e⟩ flag
      = (Except.error e, ⟨[], e⟩, flag && env.accept4Supported) := by
  cases flag with
  | false =>
    rw [acceptNonBlockingSocket_false]
    simp [acceptPlain, rawAccept]
  | true =>
    by_cases hs : env.accept4Supported = true
    · simp [acceptNonBlockingSocket, callAccept4, hs, rawAccept, he1, he2]
    · have hfc : env.accept4FailCode = ENOSYS ∨ env.accept4FailCode = EINVAL := by
        rcases hcap with h | h | h
        · exact absurd h hs
        · exact Or.inl h
        · exact Or.inr h
      simp [acceptNonBlockingSocket, callAccept4, hs, hfc, acceptPlain,
        rawAccept]

theorem acceptLoop_drains (env : Env) (l : List Nat) (e : Nat) (flag : Bool)
    (n : Nat) (hn : l.length < n) (hsnb : env.snbFailFds = [])
    (hcap : env.accept4Supported = true ∨ env.accept4FailCode = ENOSYS ∨
      env.accept4FailCode = EINVAL)
    (he1 : e ≠ ENOSYS) (he2 : e ≠ EINVAL) :
    acceptLoop env n ⟨l, e⟩ flag
      = (l, some e, ⟨[], e⟩, flag && env.accept4Supported) := by
  induction l generalizing flag n with
  | nil =>
    cases n with
    | zero => exact absurd hn (by simp)
    | succ m =>
      simp only [acceptLoop, acceptNonBlockingSocket_empty env e flag hcap he1 he2]
  | cons fd rest ih =>
    cases n with
    | zero => exact absurd hn (by simp)
    | succ m =>
      have hm : rest.length < m := by
        simpa [Nat.succ_lt_succ_iff] using hn
      simp only [acceptLoop, acceptNonBlockingSocket_ok env fd rest e flag hsnb hcap,
        ih (flag && env.accept4Supported) m hm]
      rw [Bool.and_assoc, Bool.and_self]

/-- **C7** (confirmed).  A burst against an endpoint with exactly `M < 16`
pending connections (and whose drained accept reports would-block, i.e.
`EAGAIN` or `EWOULDBLOCK`, the accept primitives otherwise functioning)
collects exactly those `M` descriptors in order, records count `M`, returns
`true` to the main loop, performs no cooldown wait, and logs nothing —
the would-block failure is the burst's normal successful termination. -/
theorem acceptNewClients_would_block (env : Env) (cf : Bool) (l : List Nat)
    (e : Nat) (flag : Bool) (hM : l.length < 16)
    (he : e = EAGAIN ∨ e = EWOULDBLOCK)
    (hsnb : env.snbFailFds = [])
    (hcap : env.accept4Supported = true ∨ env.accept4FailCode = ENOSYS ∨
      env.accept4FailCode = EINVAL) :
    acceptNewClients env cf ⟨l, e⟩ flag false
      = { accepted := l, newClientCount := l.length,
          accept4Available := flag && env.accept4Supported, quit := false,
          ok := true, cooldowns := 0, logs := [], ep := ⟨[], e⟩ } := by
  have he1 : e ≠ ENOSYS := by rcases he with h | h <;> (subst h; decide)
  have he2 : e ≠ EINVAL := by rcases he with h | h <;> (subst h; decide)
  have hl := acceptLoop_drains env l e flag ACCEPT_BURST_COUNT
    (by simpa [ACCEPT_BURST_COUNT] using hM) hsnb hcap he1 he2
  have hcond : ¬(e ≠ EAGAIN ∧ e ≠ EWOULDBLOCK) := by
    rcases he with h | h <;> simp [h]
  simp only [acceptNewClients, hl, hcond, if_false]
  simp [Nat.mod_eq_of_lt hM]

/-- Witness for C7: a burst over three pending connections in a healthy
environment. -/
theorem acceptNewClients_would_block_witness :
    3 < 16 ∧ (EAGAIN = EAGAIN ∨ EAGAIN = EWOULDBLOCK)
    ∧ acceptNewClients envStd false ⟨[100, 101, 102], EAGAIN⟩ true false
      = { accepted := [100, 101, 102], newClientCount := 3,
          accept4Available := true, quit := false, ok := true,
          cooldowns := 0, logs := [], ep := ⟨[], EAGAIN⟩ } :=
  ⟨by decide, Or.inl rfl,
   acceptNewClients_would_block envStd false [100, 101, 102] EAGAIN true
     (by decide) (Or.inl rfl) rfl (Or.inl rfl)⟩

/-- **C5** (confirmed).  When the burst loop stops with an error other than
`EAGAIN`/`EWOULDBLOCK`, `acceptNewClients` logs the error, performs exactly
one bounded wait on the exit pipe alone (`cooldowns = 1`, never one per
failed accept), sets `quit` exactly when the exit pipe fires during that
wait and otherwise logs the recovery notice, and returns `false` to signal
the cooldown to the main loop. -/
theorem acceptNewClients_cooldown (env : Env) (cf : Bool) (ep : EpState)
    (flag : Bool) (fds : List Nat) (e : Nat) (ep' : EpState) (flag' : Bool)
    (hloop : acceptLoop env ACCEPT_BURST_COUNT ep flag = (fds, some e, ep', flag'))
    (he1 : e ≠ EAGAIN) (he2 : e ≠ EWOULDBLOCK) :
    acceptNewClients env cf ep flag false
      = { accepted := fds, newClientCount := fds.length % 16,
          accept4Available := flag', quit := cf, ok := false, cooldowns := 1,
          logs := LogEvent.acceptError e ::
            (if cf then [] else [LogEvent.resumeNotice]),
          ep := ep' } := by
  have hcond : e ≠ EAGAIN ∧ e ≠ EWOULDBLOCK := ⟨he1, he2⟩
  simp only [acceptNewClients, hloop, hcond, if_true]
  cases cf <;> (simp; exact ⟨he1, he2⟩)

/-- Witness for C5: a burst that immediately fails with `EMFILE` while the
exit pipe fires during the cooldown wait. -/
theorem acceptNewClients_cooldown_witness :
    acceptLoop envStd ACCEPT_BURST_COUNT ⟨[], EMFILE⟩ true
      = ([], some EMFILE, ⟨[], EMFILE⟩, true)
    ∧ EMFILE ≠ EAGAIN ∧ EMFILE ≠ EWOULDBLOCK
    ∧ acceptNewClients envStd true ⟨[], EMFILE⟩ true false
      = { accepted := [], newClientCount := 0, accept4Available := true,
          quit := true, ok := false, cooldowns := 1,
          logs := [LogEvent.acceptError EMFILE], ep := ⟨[], EMFILE⟩ } :=
  ⟨by decide, by decide, by decide,
   acceptNewClients_cooldown envStd true ⟨[], EMFILE⟩ true [] EMFILE
     ⟨[], EMFILE⟩ true (by decide) (by decide) (by decide)⟩

/-- **C8** (confirmed).  In any iteration whose primary poll reports the
exit pipe readable, the loop body only sets `quit`: no endpoint is serviced
(endpoint queues unchanged), nothing is dispatched, and no other state
changes — even when endpoints are readable in the same poll (`inp.readable`
is arbitrary), so their burst for that iteration is skipped. -/
theorem mainLoop_exit_priority (N : Nat) (env : Env) (inp : IterIn)
    (s : LBState) (h : inp.exitReadable = true) :
    iteration N env inp s = { s with quit := true } := by
  simp [iteration, h]

/-- A state with one endpoint that has pending connections, used to witness
the shutdown race in C8. -/
def sReady : LBState :=
  { endpoints := [⟨[41, 42], EAGAIN⟩], accept4Available := true, quit := false,
    buffer := [], count := 0, nextServer := 0, dispatched := [], logs := [] }

/-- Witness for C8: exit pipe and an endpoint readable simultaneously. -/
theorem mainLoop_exit_priority_witness :
    (IterIn.mk true [true] false).exitReadable = true
    ∧ iteration 2 envStd ⟨true, [true], false⟩ sReady = { sReady with quit := true } :=
  ⟨rfl, mainLoop_exit_priority 2 envStd ⟨true, [true], false⟩ sReady rfl⟩

/-- **C9** (confirmed).  `shutdown()` with no running thread (never started,
or a previous shutdown completed) performs no write and no join; with a
running thread it writes one byte to the exit pipe, warns only on write
errors other than `EAGAIN`/`EWOULDBLOCK` (a full pipe is a benign no-op),
joins the thread and clears the thread pointer — so a second `shutdown()`
after any first one is a complete no-op (idempotence). -/
theorem shutdown_idempotent :
    (∀ w : Option Nat, shutdown false w
        = { wroteByte := false, joined := false, warned := false,
            threadRunning := false })
    ∧ (∀ w : Option Nat, (shutdown true w).wroteByte = true
        ∧ (shutdown true w).joined = true
        ∧ (shutdown true w).threadRunning = false)
    ∧ (shutdown true none).warned = false
    ∧ (shutdown true (some EAGAIN)).warned = false
    ∧ (shutdown true (some EWOULDBLOCK)).warned = false
    ∧ (shutdown true (some EMFILE)).warned = true
    ∧ (∀ w wNext : Option Nat, shutdown (shutdown true w).threadRunning wNext
        = { wroteByte := false, joined := false, warned := false,
            threadRunning := false }) :=
  ⟨fun _ => rfl, fun _ => ⟨rfl, rfl, rfl⟩, rfl, by decide, by decide, by decide,
   fun _ _ => rfl⟩

/-- Sixteen pending connections, a full burst's worth. -/
def pending16 : List Nat :=
  [100, 101, 102, 103, 104, 105, 106, 107, 108, 109, 110, 111, 112, 113, 114, 115]

/-- A fresh state with one readable endpoint holding 16 pending connections. -/
def sixteenPending : LBState :=
  { endpoints := [⟨pending16, EAGAIN⟩], accept4Available := true, quit := false,
    buffer := [], count := 0, nextServer := 0, dispatched := [], logs := [] }

/-- A fresh state with two endpoints, both with pending connections. -/
def twoReadyState : LBState :=
  { endpoints := [⟨[1, 2, 3], EAGAIN⟩, ⟨[7, 8], EAGAIN⟩], accept4Available := true,
    quit := false, buffer := [], count := 0, nextServer := 0, dispatched := [],
    logs := [] }

/-- **C1** (code_bug).  The claimed invariant — every accepted descriptor is
dispatched to exactly one worker, none left open and undispatched when the
iteration's distribution completes — fails on the code in two ways.
(1) A full burst of 16: the 4-bit `newClientCount` bitfield stores
`16 % 16 = 0`, so the iteration drains the endpoint of all 16 connections
(they sit in the buffer) yet dispatches none.  (2) Two endpoints readable
in one iteration: each `acceptNewClients` call overwrites `newClients[0..]`
and reassigns (not accumulates) `newClientCount`, so the single distributor
pass hands off only the last burst — the first endpoint's descriptors
`1, 2, 3` are accepted but never dispatched. -/
theorem iteration_leaves_accepted_undispatched :
    (iteration 2 envStd ⟨false, [true], false⟩ sixteenPending).dispatched = []
    ∧ (iteration 2 envStd ⟨false, [true], false⟩ sixteenPending).endpoints
        = [⟨[], EAGAIN⟩]
    ∧ (iteration 2 envStd ⟨false, [true], false⟩ sixteenPending).buffer = pending16
    ∧ (iteration 2 envStd ⟨false, [true, true], false⟩ twoReadyState).dispatched
        = [(0, 7), (1, 8)] := by
  refine ⟨by decide, by decide, by decide, by decide⟩

/-- **C2** (code_bug).  An endpoint with at least 16 pending connections
(here 17): the burst does accept exactly 16 and leaves the remainder
pending for the next wake-up, but the recorded burst count is
`16 % 16 = 0` — not 16 — because `newClientCount` is a 4-bit bitfield, so
none of the 16 accepted descriptors is subsequently distributed. -/
theorem acceptNewClients_full_burst_count_wraps :
    (acceptNewClients envStd false ⟨pending16 ++ [116], EAGAIN⟩ true false).accepted.length
        = 16
    ∧ (acceptNewClients envStd false ⟨pending16 ++ [116], EAGAIN⟩ true false).newClientCount
        = 0
    ∧ (acceptNewClients envStd false ⟨pending16 ++ [116], EAGAIN⟩ true false).ok = true
    ∧ (acceptNewClients envStd false ⟨pending16 ++ [116], EAGAIN⟩ true false).ep
        = ⟨[116], EAGAIN⟩ := by
  refine ⟨by decide, by decide, by decide, by decide⟩

/-- **C4** (code_bug; capacity `SERVER_KIT_MAX_SERVER_ENDPOINTS = 4`
modelled from the spec).  The 2-bit `nEndpoints` bitfield wraps `3 + 1` to
`0`, so the fourth below-capacity `listen` call does not increase the
endpoint count by one (it resets it to 0), and since the field can never
hold 4 the `assert(nEndpoints < SERVER_KIT_MAX_SERVER_ENDPOINTS)` can never
fire: a fifth call is accepted too and overwrites slot 0. -/
theorem listen_nEndpoints_wraps :
    listenAll initialRegState [7, 8, 9, 10]
      = some { endpoints := [some 7, some 8, some 9, some 10], nEndpoints := 0 }
    ∧ listenAll initialRegState [7, 8, 9, 10, 11]
      = some { endpoints := [some 11, some 8, some 9, some 10], nEndpoints := 1 } := by
  refine ⟨by decide, by decide⟩

end AcceptLoadBalancer
